import Mathlib

/-!
Shallow embedding of `parse_inventory_file` from `app.py` (lines 24-85).

The parser reads a text file line by line; here the input is the list of
lines.  Each line is stripped; lines that are empty or shorter than
3 characters are skipped.  Otherwise two regular expressions are tried:

  Pattern A:  (\d+)\s+(.*?)(?:\s+(\d+(?:[.,]\d+)?))?$
  Pattern B:  (.*?)(?:\s+(\d+(?:[.,]\d+)?))?$

with a whole-line fallback (Pattern C) when B fails.  The captured price
token has any comma replaced by a period and is converted with float()
(falling back to 0.0), the name is stripped with at most one trailing
period removed, and the record is emitted only if the name is non-empty
and not all whitespace.

Strings are handled as `List Char` (Python code points).  Prices are
modelled as exact rationals: every token reaching float() has the shape
\d+([.,]\d+)?, whose decimal value the model returns exactly; the values
compared in the development (5.5, 0.0) are dyadic, so exact arithmetic
and IEEE double conversion agree on them.  `\d` is modelled as the ASCII
digits (the inventory data and every input considered here is ASCII;
other Unicode decimal digits would also convert via int()/float() to the
same non-negative values, so no statement below depends on the
restriction).
-/

namespace FlorDeMaria

/-- White-space set of Python's `\s` for `str` patterns, `str.strip()` and
`str.isspace()` (Unicode whitespace). -/
def isPySpace (c : Char) : Bool :=
  c = ' ' || c = '\t' || c = '\n' || c = '\x0b' || c = '\x0c' || c = '\r' ||
  c = '\x1c' || c = '\x1d' || c = '\x1e' || c = '\x1f' ||
  c.val = 0x85 || c.val = 0xa0 || c.val = 0x1680 ||
  (0x2000 ≤ c.val && c.val ≤ 0x200a) ||
  c.val = 0x2028 || c.val = 0x2029 || c.val = 0x202f ||
  c.val = 0x205f || c.val = 0x3000

/-- ASCII decimal digits, the characters matched by `\d` on this data. -/
def isPyDigit (c : Char) : Bool :=
  '0' ≤ c && c ≤ '9'

/-- `line.strip()`: remove leading and trailing whitespace. -/
def pyStrip (l : List Char) : List Char :=
  ((l.dropWhile isPySpace).reverse.dropWhile isPySpace).reverse

/-- `int()` on a non-empty string of decimal digits. -/
def natOfDigits (l : List Char) : ℕ :=
  l.foldl (fun n c => 10 * n + (c.toNat - 48)) 0

/-- Python's `$` anchor (no MULTILINE): matches at the end of the string or
just before a newline that is the last character. -/
def endAnchor (s : List Char) : Bool :=
  s = [] || s = ['\n']

/-- Match the tail group `\s+(\d+(?:[.,]\d+)?)` followed by `$` against the
whole of `s`, returning the captured token.  Greedy `\s+`/`\d+` with
backtracking reduce to maximal runs here because the character classes
involved are disjoint and the match must reach the anchor. -/
def matchTailNum (s : List Char) : Option (List Char) :=
  let w := s.takeWhile isPySpace
  let r1 := s.drop w.length
  if w.isEmpty then none
  else
    let d := r1.takeWhile isPyDigit
    let r2 := r1.drop d.length
    if d.isEmpty then none
    else if endAnchor r2 then some d
    else
      match r2 with
      | [] => none
      | c :: r3 =>
        if c = '.' || c = ',' then
          let d2 := r3.takeWhile isPyDigit
          if !d2.isEmpty && endAnchor (r3.drop d2.length) then
            some (d ++ c :: d2)
          else none
        else none

/-- `re.match` of Pattern B, `(.*?)(?:\s+(\d+(?:[.,]\d+)?))?$`: the lazy
`(.*?)` grows from the left; at each position the engine first tries the
optional price group to the anchor, then the anchor itself, and only then
lets `(.*?)` consume one more character — which `.` cannot do at a
newline.  Returns (group 1, optional group 2). -/
def matchB : List Char → Option (List Char × Option (List Char))
  | [] => some ([], none)
  | c :: rest =>
    match matchTailNum (c :: rest) with
    | some tok => some ([], some tok)
    | none =>
      if c = '\n' && rest.isEmpty then some ([], none)
      else if c = '\n' then none
      else
        match matchB rest with
        | some (name, tok) => some (c :: name, tok)
        | none => none

/-- `re.match` of Pattern A, `(\d+)\s+(.*?)(?:\s+(\d+(?:[.,]\d+)?))?$`:
a maximal leading digit run, a maximal whitespace run (backtracking of
either cannot help, since a shorter run exposes a character of the same
class to a pattern that rejects it), then Pattern B's body on the rest.
Returns (group 1, group 2, optional group 3). -/
def matchA (s : List Char) : Option (List Char × List Char × Option (List Char)) :=
  let d := s.takeWhile isPyDigit
  let r1 := s.drop d.length
  if d.isEmpty then none
  else
    let w := r1.takeWhile isPySpace
    let r2 := r1.drop w.length
    if w.isEmpty then none
    else
      match matchB r2 with
      | some (name, tok) => some (d, name, tok)
      | none => none

/-- `float()` restricted to unsigned decimal literals `d+`, `d+.d+`, `d+.`
and `.d+`.  Every string the parser passes to float() has the shape
`\d+(\.\d+)?` (a price token after comma normalisation), on which this
model agrees exactly with Python. -/
def pyFloat? (s : List Char) : Option ℚ :=
  let intPart := s.takeWhile isPyDigit
  let rest := s.drop intPart.length
  match rest with
  | [] => if intPart.isEmpty then none else some (natOfDigits intPart)
  | '.' :: fracPart =>
    if fracPart.all isPyDigit && (!intPart.isEmpty || !fracPart.isEmpty) then
      some ((natOfDigits intPart : ℚ) + (natOfDigits fracPart : ℚ) / 10 ^ fracPart.length)
    else none
  | _ => none

/-- Lines 57-66: `if price_str:` then replace every comma by a period and
try float(), falling back to 0.0 on failure; absent (or empty, hence
falsy) token means 0.0. -/
def priceOf (tok : Option (List Char)) : ℚ :=
  match tok with
  | none => 0
  | some t =>
    if t.isEmpty then 0
    else
      match pyFloat? (t.map (fun c => if c = ',' then '.' else c)) with
      | some q => q
      | none => 0

/-- Lines 68-71: strip the name; if it ends with a period, drop exactly
that one character and strip again. -/
def cleanName (l : List Char) : List Char :=
  let t := pyStrip l
  if t.getLast? = some '.' then pyStrip t.dropLast else t

/-- `name.isspace()`: non-empty and all characters whitespace. -/
def pyIsSpaceStr (l : List Char) : Bool :=
  !l.isEmpty && l.all isPySpace

/-- One inventory record (a `products` list entry): quantity from `int()`,
name a string, price modelled as an exact rational. -/
structure Product where
  quantity : ℤ
  name : String
  price : ℚ
  deriving DecidableEq

/-- Lines 38-55: the (quantity, raw name, optional price token) extracted
from a stripped line by Pattern A, else Pattern B, else the whole-line
fallback (Pattern C: name = line, quantity 1, no price). -/
def extractFields (s : List Char) : ℤ × List Char × Option (List Char) :=
  match matchA s with
  | some (d, name, tok) => ((natOfDigits d : ℤ), pyStrip name, tok)
  | none =>
    match matchB s with
    | some (name, tok) => (1, pyStrip name, tok)
    | none => (1, s, none)

/-- Outcome of one loop iteration: skipped before the try block (line 31),
emitted into `products`, or dropped by the emission guard (line 74).  The
operations inside the try block (regex matching, `int()` on a digit-run
capture, the guarded `float()`, string methods) are total on `str` input,
so the handler of line 81 fires for no line and no diagnostic is ever
produced. -/
inductive LineResult where
  | skipped
  | emitted (p : Product)
  | dropped
  deriving DecidableEq

/-- Body of the loop of lines 29-82 for one raw line. -/
def processLine (line : String) : LineResult :=
  let s := pyStrip line.data
  if s.isEmpty || s.length < 3 then .skipped
  else
    let f := extractFields s
    let name := cleanName f.2.1
    if !name.isEmpty && !pyIsSpaceStr name then
      .emitted ⟨f.1, ⟨name⟩, priceOf f.2.2⟩
    else .dropped

/-- The accumulator loop of lines 26-83: `products` starts empty and each
emitted record is appended. -/
def parseLoop : List String → List Product → List Product
  | [], acc => acc
  | line :: rest, acc =>
    match processLine line with
    | .emitted p => parseLoop rest (acc ++ [p])
    | _ => parseLoop rest acc

/-- `parse_inventory_file`, with the file given as its list of lines. -/
def parse_inventory_file (lines : List String) : List Product :=
  parseLoop lines []

/-- The record a single line contributes, if any. -/
def recordOf (line : String) : Option Product :=
  match processLine line with
  | .emitted p => some p
  | _ => none

/-- Whether a valid numeric token is isolated for a stripped line: the
optional trailing capture is present (and non-empty, hence truthy) and
survives float() after comma-to-period replacement. -/
def numTokenIsolated (s : List Char) : Bool :=
  match (extractFields s).2.2 with
  | none => false
  | some t =>
    !t.isEmpty && (pyFloat? (t.map (fun c => if c = ',' then '.' else c))).isSome

theorem parseLoop_eq (lines : List String) (acc : List Product) :
    parseLoop lines acc = acc ++ lines.filterMap recordOf := by
  induction lines generalizing acc with
  | nil => simp [parseLoop]
  | cons line rest ih =>
    simp only [parseLoop, recordOf, List.filterMap_cons]
    cases h : processLine line with
    | skipped => simp [h, ih]
    | emitted p => simp [h, ih]
    | dropped => simp [h, ih]

theorem parse_filterMap (lines : List String) :
    parse_inventory_file lines = lines.filterMap recordOf := by
  simp [parse_inventory_file, parseLoop_eq]

/-- C1: for the single input line "12 Caderno 20 folhas 5.50" the parser
emits exactly one record, {quantity 12, name "Caderno 20 folhas",
price 5.50}: Pattern A captures the leading digits as the quantity, the
non-greedy body as the name, and the end-anchored trailing token "5.50"
as the price, without swallowing the interior "20" of the name. -/
theorem claim_C1 :
    parse_inventory_file ["12 Caderno 20 folhas 5.50"] =
      [⟨12, "Caderno 20 folhas", (11 : ℚ) / 2⟩] := by
  have h : parse_inventory_file ["12 Caderno 20 folhas 5.50"] =
      [⟨12, "Caderno 20 folhas", ((5 : ℕ) : ℚ) + ((50 : ℕ) : ℚ) / 10 ^ 2⟩] := rfl
  rw [h]
  norm_num

/-- C2: for the single input line "Caderno 20 folhas 5,50" (no leading
quantity) the parser emits exactly one record, {quantity 1, name
"Caderno 20 folhas", price 5.50}: Pattern A fails, Pattern B fixes the
quantity at 1 and captures "5,50", and the comma is normalised to a
period before conversion. -/
theorem claim_C2 :
    parse_inventory_file ["Caderno 20 folhas 5,50"] =
      [⟨1, "Caderno 20 folhas", (11 : ℚ) / 2⟩] := by
  have h : parse_inventory_file ["Caderno 20 folhas 5,50"] =
      [⟨1, "Caderno 20 folhas", ((5 : ℕ) : ℚ) + ((50 : ℕ) : ℚ) / 10 ^ 2⟩] := rfl
  rw [h]
  norm_num

/-- C4: the parser is total over its line sequence and isolates failures
per line: every call returns a (possibly empty) record list, each line
contributes independently of all others through `recordOf`, and no
per-line processing aborts the whole parse. -/
theorem claim_C4 (lines : List String) :
    parse_inventory_file lines = lines.filterMap recordOf := by
  simp [parse_inventory_file, parseLoop_eq]

/-- C6: for the single input line "Borracha." the parser emits exactly one
record, {quantity 1, name "Borracha", price 0.0}; name cleanup trims the
name and removes at most the one trailing period (then trims again): with
two trailing periods exactly one is removed, and in general the cleaned
name is either the trimmed name or the trimmed name with its last
character (a period) removed and re-trimmed. -/
theorem claim_C6 :
    parse_inventory_file ["Borracha."] = [⟨1, "Borracha", 0⟩] ∧
    parse_inventory_file ["Borracha.."] = [⟨1, "Borracha.", 0⟩] ∧
    ∀ l : List Char,
      cleanName l = pyStrip l ∨ cleanName l = pyStrip (pyStrip l).dropLast := by
  refine ⟨by decide, by decide, fun l => ?_⟩
  by_cases h : (pyStrip l).getLast? = some '.'
  · right; simp [cleanName, h]
  · left; simp [cleanName, h]

/-- C7: a line that is empty or shorter than 3 characters after stripping
is silently skipped: its loop iteration ends before the try block, so it
contributes no record and no diagnostic. -/
theorem claim_C7 (line : String) (h : (pyStrip line.data).length < 3) :
    processLine line = .skipped ∧ parse_inventory_file [line] = [] := by
  have hs : processLine line = .skipped := by
    simp only [processLine]
    rw [if_pos]
    simp [h]
  exact ⟨hs, by simp [parse_inventory_file, parseLoop, hs]⟩

/-- Witness for C7 at the concrete line "ab" (stripped length 2). -/
theorem claim_C7_witness :
    (pyStrip "ab".data).length < 3 ∧
      (processLine "ab" = .skipped ∧ parse_inventory_file ["ab"] = []) :=
  ⟨by decide, claim_C7 "ab" (by decide)⟩

/-- C8: parsing is line-local and order-preserving: it maps concatenation
of line sequences to concatenation of outputs, and each single line
contributes at most one record. -/
theorem claim_C8 :
    (∀ xs ys : List String,
      parse_inventory_file (xs ++ ys) =
        parse_inventory_file xs ++ parse_inventory_file ys) ∧
    ∀ line : String, (parse_inventory_file [line]).length ≤ 1 := by
  constructor
  · intro xs ys
    simp [parse_filterMap]
  · intro line
    simp only [parse_filterMap, List.filterMap]
    cases recordOf line <;> simp

/-- C9: the parser is deterministic and stateless across invocations: two
runs on the same line sequence yield identical outputs (in this embedding
it is a pure function of the line sequence alone). -/
theorem claim_C9 (xs ys : List String) (h : xs = ys) :
    parse_inventory_file xs = parse_inventory_file ys := by
  rw [h]

/-- Witness for C9: two invocations on the same concrete sequence. -/
theorem claim_C9_witness :
    parse_inventory_file ["Borracha."] = parse_inventory_file ["Borracha."] :=
  claim_C9 ["Borracha."] ["Borracha."] rfl

theorem recordOf_eq_some {line : String} {p : Product}
    (h : recordOf line = some p) : processLine line = .emitted p := by
  unfold recordOf at h
  cases hpl : processLine line with
  | skipped => rw [hpl] at h; simp at h
  | emitted q => rw [hpl] at h; injection h with h'; rw [h']
  | dropped => rw [hpl] at h; simp at h

theorem processLine_emitted {line : String} {p : Product}
    (h : processLine line = .emitted p) :
    p.quantity = (extractFields (pyStrip line.data)).1 ∧
    p.name.data = cleanName (extractFields (pyStrip line.data)).2.1 ∧
    p.price = priceOf (extractFields (pyStrip line.data)).2.2 ∧
    (cleanName (extractFields (pyStrip line.data)).2.1).isEmpty = false ∧
    pyIsSpaceStr (cleanName (extractFields (pyStrip line.data)).2.1) = false := by
  simp only [processLine] at h
  split at h
  · simp at h
  · split at h
    case isTrue hguard =>
      injection h with h'
      rw [← h']
      simp only [Bool.and_eq_true, Bool.not_eq_true'] at hguard
      exact ⟨rfl, rfl, rfl, hguard.1, hguard.2⟩
    case isFalse hguard => simp at h

theorem extractFields_quantity_nonneg (s : List Char) :
    0 ≤ (extractFields s).1 := by
  unfold extractFields
  cases hA : matchA s with
  | some x =>
    obtain ⟨d, name, tok⟩ := x
    simp
  | none =>
    cases hB : matchB s with
    | some x => obtain ⟨name, tok⟩ := x; simp
    | none => simp

theorem pyFloat_nonneg {s : List Char} {q : ℚ}
    (h : pyFloat? s = some q) : 0 ≤ q := by
  simp only [pyFloat?] at h
  split at h
  · split at h
    · simp at h
    · injection h with h'
      rw [← h']
      positivity
  · split at h
    · injection h with h'
      rw [← h']
      positivity
    · simp at h
  · simp at h

theorem priceOf_nonneg (tok : Option (List Char)) : 0 ≤ priceOf tok := by
  unfold priceOf
  cases tok with
  | none => simp
  | some t =>
    by_cases he : t.isEmpty
    · simp [he]
    · cases hf : pyFloat? (t.map fun c => if c = ',' then '.' else c) with
      | none => simp [he, hf]
      | some q => simpa [he, hf] using pyFloat_nonneg hf

theorem priceOf_zero_of_not_isolated {s : List Char}
    (h : numTokenIsolated s = false) :
    priceOf (extractFields s).2.2 = 0 := by
  unfold numTokenIsolated at h
  cases htok : (extractFields s).2.2 with
  | none => simp [priceOf]
  | some t =>
    rw [htok] at h
    by_cases he : t.isEmpty
    · simp [priceOf, he]
    · have hn : pyFloat? (t.map fun c => if c = ',' then '.' else c) = none := by
        simp [he] at h
        exact h
      simp [priceOf, he, hn]

/-- C3: whenever no valid numeric token is isolated for a line (the
optional trailing capture is absent or fails float conversion after
comma-to-period replacement), the emitted record's price is exactly 0;
in particular "3 Lápis ?" yields exactly {quantity 3, name "Lápis ?",
price 0}, the invalid token "?" staying in the name. -/
theorem claim_C3 :
    (∀ (line : String) (p : Product), p ∈ parse_inventory_file [line] →
        numTokenIsolated (pyStrip line.data) = false → p.price = 0) ∧
    parse_inventory_file ["3 Lápis ?"] = [⟨3, "Lápis ?", 0⟩] := by
  refine ⟨?_, by decide⟩
  intro line p hp hno
  rw [parse_filterMap] at hp
  obtain ⟨a, ha, hrec⟩ := List.mem_filterMap.mp hp
  rw [List.mem_singleton.mp ha] at hrec
  obtain ⟨-, -, hpr, -, -⟩ := processLine_emitted (recordOf_eq_some hrec)
  rw [hpr]
  exact priceOf_zero_of_not_isolated hno

set_option maxHeartbeats 2000000 in
/-- Witness for C3 at the concrete line "3 Lápis ?". -/
theorem claim_C3_witness :
    ((⟨3, "Lápis ?", 0⟩ : Product) ∈ parse_inventory_file ["3 Lápis ?"] ∧
      numTokenIsolated (pyStrip "3 Lápis ?".data) = false) ∧
    (⟨3, "Lápis ?", 0⟩ : Product).price = 0 :=
  ⟨⟨by decide, by decide⟩,
    claim_C3.1 "3 Lápis ?" ⟨3, "Lápis ?", 0⟩ (by decide) (by decide)⟩

/-- C5: every emitted record satisfies the output invariant: non-negative
quantity, non-negative price, and a non-empty name containing at least
one non-whitespace character. -/
theorem claim_C5 (lines : List String) (p : Product)
    (hp : p ∈ parse_inventory_file lines) :
    0 ≤ p.quantity ∧ 0 ≤ p.price ∧ p.name.data ≠ [] ∧
      ∃ c ∈ p.name.data, isPySpace c = false := by
  rw [parse_filterMap] at hp
  obtain ⟨line, -, hrec⟩ := List.mem_filterMap.mp hp
  obtain ⟨hq, hn, hpr, hne, hns⟩ := processLine_emitted (recordOf_eq_some hrec)
  refine ⟨?_, ?_, ?_, ?_⟩
  · rw [hq]; exact extractFields_quantity_nonneg _
  · rw [hpr]; exact priceOf_nonneg _
  · rw [hn]; intro hcon; rw [hcon] at hne; simp at hne
  · rw [hn]
    unfold pyIsSpaceStr at hns
    rw [hne] at hns
    simp only [Bool.not_false, Bool.true_and] at hns
    obtain ⟨c, hc, hcs⟩ := List.all_eq_false.mp hns
    exact ⟨c, hc, by simpa using hcs⟩

set_option maxHeartbeats 2000000 in
/-- Witness for C5 at the record emitted for the line "abc". -/
theorem claim_C5_witness :
    (⟨1, "abc", 0⟩ : Product) ∈ parse_inventory_file ["abc"] ∧
      (0 ≤ (⟨1, "abc", 0⟩ : Product).quantity ∧
        0 ≤ (⟨1, "abc", 0⟩ : Product).price ∧
        (⟨1, "abc", 0⟩ : Product).name.data ≠ [] ∧
        ∃ c ∈ (⟨1, "abc", 0⟩ : Product).name.data, isPySpace c = false) :=
  ⟨by decide, claim_C5 ["abc"] _ (by decide)⟩

theorem matchB_cons (c : Char) (rest : List Char) :
    matchB (c :: rest) =
      match matchTailNum (c :: rest) with
      | some tok => some ([], some tok)
      | none =>
        if c = '\n' && rest.isEmpty then some ([], none)
        else if c = '\n' then none
        else
          match matchB rest with
          | some (name, tok) => some (c :: name, tok)
          | none => none := rfl

theorem matchB_isSome {s : List Char} (h : '\n' ∉ s) :
    (matchB s).isSome = true := by
  induction s with
  | nil => rfl
  | cons c rest ih =>
    have hc : ¬ c = '\n' := fun hc => h (by simp [hc])
    have hrest : '\n' ∉ rest := fun hr => h (List.mem_cons_of_mem _ hr)
    cases htn : matchTailNum (c :: rest) with
    | some tok => rw [matchB_cons, htn]; rfl
    | none =>
      obtain ⟨pr, hpr⟩ := Option.isSome_iff_exists.mp (ih hrest)
      obtain ⟨name, tok⟩ := pr
      rw [matchB_cons, htn, hpr]
      simp [hc]

/-- C10: Pattern B always matches a newline-free line (the lazy body can
take the whole line and the trailing group is optional), so the Pattern C
whole-line fallback of the parser is unreachable: whenever Pattern A
fails on such a line, the extracted fields come from Pattern B's groups,
never from the fallback branch. -/
theorem claim_C10 (s : List Char) (h : '\n' ∉ s) :
    ∃ name tok, matchB s = some (name, tok) ∧
      (matchA s = none → extractFields s = (1, pyStrip name, tok)) := by
  obtain ⟨pr, hpr⟩ := Option.isSome_iff_exists.mp (matchB_isSome h)
  obtain ⟨name, tok⟩ := pr
  refine ⟨name, tok, hpr, fun hA => ?_⟩
  unfold extractFields
  rw [hA, hpr]

/-- Witness for C10 at the concrete stripped line "Borracha". -/
theorem claim_C10_witness :
    '\n' ∉ "Borracha".data ∧
      ∃ name tok, matchB "Borracha".data = some (name, tok) ∧
        (matchA "Borracha".data = none →
          extractFields "Borracha".data = (1, pyStrip name, tok)) :=
  ⟨by decide, claim_C10 "Borracha".data (by decide)⟩

end FlorDeMaria
